import Mathlib

/-!
Verification of the gdt-kube test plugin: a shallow embedding of the
assertion evaluator (`assertions.go`), the document comparator
(`compare.go`), the condition matcher, the placement-spread assertion and
the step evaluator (`eval.go`), together with proofs of the spec claims.

Go values decoded from YAML/JSON documents are modelled by the inductive
type `Val`; Go machine integers carry their width tag so that dynamic
type assertions such as `subject.(int)` can be modelled faithfully.
A Go runtime panic is modelled as the `.error` branch of `Except`.
-/

namespace GdtKube

/-- Width tag for Go signed integer kinds (`int`, `int8`, ..., `int64`). -/
inductive IntW where
  | i | i8 | i16 | i32 | i64
deriving DecidableEq, Repr

/-- Width tag for Go unsigned integer kinds (`uint`, `uint8`, ..., `uint64`). -/
inductive UIntW where
  | u | u8 | u16 | u32 | u64
deriving DecidableEq, Repr

/-- A Go `any` value in a decoded document tree: nested maps, sequences and
scalars.  Maps are association lists keyed by strings (Go `map[string]any`). -/
inductive Val where
  | vnull
  | vbool (b : Bool)
  | vint (w : IntW) (n : Int)
  | vuint (w : UIntW) (n : Nat)
  | vstr (s : String)
  | vlist (elems : List Val)
  | vmap (entries : List (String × Val))

mutual

/-- Structural equality of document values, modelling `reflect.DeepEqual`
on decoded `any` trees: equal dynamic type (including integer width) and
equal contents. -/
def valEq : Val → Val → Bool
  | .vnull, .vnull => true
  | .vbool a, .vbool b => a = b
  | .vint w a, .vint w2 b => w = w2 ∧ a = b
  | .vuint w a, .vuint w2 b => w = w2 ∧ a = b
  | .vstr a, .vstr b => a = b
  | .vlist xs, .vlist ys => valEqList xs ys
  | .vmap xs, .vmap ys => valEqEntries xs ys
  | _, _ => false

/-- Pointwise `valEq` on sequences of equal length. -/
def valEqList : List Val → List Val → Bool
  | [], [] => true
  | x :: xs, y :: ys => valEq x y && valEqList xs ys
  | _, _ => false

/-- Pointwise `valEq` on map entry lists (key order significant in the
model; Go maps are keyed sets, but the model only ever compares entry
lists produced in the same order). -/
def valEqEntries : List (String × Val) → List (String × Val) → Bool
  | [], [] => true
  | (k, x) :: xs, (k2, y) :: ys => k = k2 && valEq x y && valEqEntries xs ys
  | _, _ => false

end

mutual

theorem valEq_refl : ∀ a, valEq a a = true
  | .vnull => rfl
  | .vbool _ => by simp [valEq]
  | .vint _ _ => by simp [valEq]
  | .vuint _ _ => by simp [valEq]
  | .vstr _ => by simp [valEq]
  | .vlist xs => by simp [valEq, valEqList_refl xs]
  | .vmap xs => by simp [valEq, valEqEntries_refl xs]

theorem valEqList_refl : ∀ l, valEqList l l = true
  | [] => rfl
  | x :: xs => by simp [valEqList, valEq_refl x, valEqList_refl xs]

theorem valEqEntries_refl : ∀ l, valEqEntries l l = true
  | [] => rfl
  | (k, x) :: xs => by simp [valEqEntries, valEq_refl x, valEqEntries_refl xs]

end

/-- First-match association lookup, modelling Go map indexing. -/
def lookupAssoc {A : Type} (l : List (String × A)) (k : String) : Option A :=
  match l with
  | [] => none
  | (k2, v) :: rest => if k2 = k then some v else lookupAssoc rest k

/-- Model of `strings.ToLower` (restricted to the ASCII simple case
mapping, which is all the repository ever lowers). -/
def lowerStr (s : String) : String := String.mk (s.data.map Char.toLower)

/-- Model of `strings.Contains s sub`: `sub` occurs as a contiguous
substring of `s` (the empty string is contained in everything). -/
def goContains (s sub : String) : Bool := decide (sub.data <:+: s.data)

/-- Model of `strconv.Itoa` / decimal rendering of a Go integer. -/
def goItoa (n : Int) : String := toString n

/-- Model of `strconv.Atoi`: optional sign, one or more decimal digits,
result must fit a 64-bit `int`; `none` models a returned error. -/
def goAtoi (s : String) : Option Int :=
  let p : Int × List Char :=
    match s.data with
    | '+' :: rest => (1, rest)
    | '-' :: rest => (-1, rest)
    | cs => (1, cs)
  if p.2 = [] then none
  else if p.2.all (fun c => c.isDigit) then
    let magnitude : Int := p.2.foldl (fun acc c => acc * 10 + ((c.toNat : Int) - 48)) 0
    let v := p.1 * magnitude
    if -(2 ^ 63) ≤ v ∧ v < 2 ^ 63 then some v else none
  else none

/-- The Go dynamic type name of a document value (the `%T` verb). -/
def goTypeName : Val → String
  | .vnull => "<nil>"
  | .vbool _ => "bool"
  | .vint w _ =>
    match w with
    | .i => "int" | .i8 => "int8" | .i16 => "int16" | .i32 => "int32" | .i64 => "int64"
  | .vuint w _ =>
    match w with
    | .u => "uint" | .u8 => "uint8" | .u16 => "uint16" | .u32 => "uint32" | .u64 => "uint64"
  | .vstr _ => "string"
  | .vlist _ => "[]interface {}"
  | .vmap _ => "map[string]interface {}"

mutual

/-- Rendering of a document value by the `%v` verb (maps rendered in
entry order; Go sorts map keys, which no claim depends on). -/
def goFmtV : Val → String
  | .vnull => "<nil>"
  | .vbool b => cond b "true" "false"
  | .vint _ n => toString n
  | .vuint _ n => toString n
  | .vstr s => s
  | .vlist xs => "[" ++ goFmtVList xs ++ "]"
  | .vmap xs => "map[" ++ goFmtVEntries xs ++ "]"

/-- Space-separated rendering of sequence elements. -/
def goFmtVList : List Val → String
  | [] => ""
  | [x] => goFmtV x
  | x :: xs => goFmtV x ++ " " ++ goFmtVList xs

/-- Space-separated `key:value` rendering of map entries. -/
def goFmtVEntries : List (String × Val) → String
  | [] => ""
  | [(k, v)] => k ++ ":" ++ goFmtV v
  | (k, v) :: xs => k ++ ":" ++ goFmtV v ++ " " ++ goFmtVEntries xs

end

/-- A signed-integer reflect kind is listed in `typesComparable`;
`reflect.Int16` is absent from every kind list there. -/
def intWComparable (w : IntW) : Bool := w ≠ .i16

/-- An unsigned-integer reflect kind is listed in `typesComparable`;
`reflect.Uint16` is absent from every kind list there. -/
def uintWComparable (w : UIntW) : Bool := w ≠ .u16

/-- `reflect.TypeOf(a) == reflect.TypeOf(b)`: identical dynamic Go type,
including integer width.  Both `nil` interfaces compare equal. -/
def sameGoType : Val → Val → Bool
  | .vnull, .vnull => true
  | .vbool _, .vbool _ => true
  | .vint w _, .vint w2 _ => w = w2
  | .vuint w _, .vuint w2 _ => w = w2
  | .vstr _, .vstr _ => true
  | .vlist _, .vlist _ => true
  | .vmap _, .vmap _ => true
  | _, _ => false

/-- Embedding of `typesComparable` (compare.go): signed-integer kinds
(except the omitted `Int16`) are comparable with one another and with
strings, likewise unsigned kinds (except the omitted `Uint16`); strings
are comparable with those numeric kinds and strings; every other pair
falls back to dynamic type identity.  Complex kinds cannot occur in a
decoded document and are not modelled. -/
def typesComparable (a b : Val) : Bool :=
  match a with
  | .vint w _ =>
    if intWComparable w then
      match b with
      | .vint w2 _ => intWComparable w2
      | .vstr _ => true
      | _ => false
    else sameGoType a b
  | .vuint w _ =>
    if uintWComparable w then
      match b with
      | .vuint w2 _ => uintWComparable w2
      | .vstr _ => true
      | _ => false
    else sameGoType a b
  | .vstr _ =>
    match b with
    | .vint w2 _ => intWComparable w2
    | .vuint w2 _ => uintWComparable w2
    | .vstr _ => true
    | _ => false
  | _ => sameGoType a b

/-- The "had different values" difference message of compare.go. -/
def diffMsg (fp : String) (m s : Val) : String :=
  fp ++ " had different values. expected " ++ goFmtV m ++ " but found " ++ goFmtV s

/-- The "had different lengths" difference message of compare.go. -/
def lengthMsg (fp : String) (lm ls : Nat) : String :=
  fp ++ " had different lengths. expected " ++ toString lm ++ " but found " ++ toString ls

/-- The "non-comparable types" difference message of compare.go. -/
def nonComparableMsg (fp : String) (m s : Val) : String :=
  fp ++ " non-comparable types: " ++ goTypeName m ++ " and " ++ goTypeName s ++ "."

/-- The "not present in subject" difference message of compare.go. -/
def notPresentMsg (fp : String) : String := fp ++ " not present in subject"

/-- The Go runtime message for a failed interface conversion of the
subject to the named target type. -/
def convPanicMsg (s : Val) (target : String) : String :=
  "interface conversion: interface {} is " ++ goTypeName s ++ ", not " ++ target

mutual

/-- Embedding of `collectFieldDifferences` (compare.go).  The result is
the list of difference strings appended for this subtree; the `.error`
branch models a Go runtime panic (a failed interface conversion).
Map entries are walked in entry-list order (Go map iteration order is
arbitrary; no claim depends on it). -/
def collectFieldDifferences (fp : String) (m s : Val) : Except String (List String) :=
  if typesComparable m s = false then
    .ok [nonComparableMsg fp m s]
  else
    match m with
    | .vmap entries =>
      match s with
      | .vmap sEntries => cfdMap fp entries sEntries
      | _ => .error (convPanicMsg s "map[string]interface {}")
    | .vlist ms =>
      match s with
      | .vlist ss =>
        if ms.length ≠ ss.length then .ok [lengthMsg fp ms.length ss.length]
        else cfdList fp 0 ms ss
      | _ => .error (convPanicMsg s "[]interface {}")
    | .vint _ n =>
      match s with
      | .vint _ n2 => .ok (if n ≠ n2 then [diffMsg fp m s] else [])
      | .vuint _ n2 => .ok (if (0 : Nat) ≠ n2 then [diffMsg fp m s] else [])
      | .vstr str =>
        match goAtoi str with
        | none => .ok [diffMsg fp m s]
        | some sv => .ok (if n ≠ sv then [diffMsg fp m s] else [])
      | _ => .ok []
    | .vstr mv =>
      match s with
      | .vint w n2 =>
        match w with
        | .i => .ok (if mv ≠ goItoa n2 then [diffMsg fp m s] else [])
        | _ => .error (convPanicMsg s "int")
      | .vuint _ _ => .error (convPanicMsg s "int")
      | .vstr sv => .ok (if mv ≠ sv then [diffMsg fp m s] else [])
      | _ => .ok []
    | _ => .ok (if valEq m s = false then [diffMsg fp m s] else [])

/-- The map arm of `collectFieldDifferences`: every key of the match map
must be present in the subject map, and present values are compared
recursively. -/
def cfdMap (fp : String) (entries sEntries : List (String × Val)) : Except String (List String) :=
  match entries with
  | [] => .ok []
  | (k, mv) :: rest =>
    match lookupAssoc sEntries k with
    | none => do
      let r ← cfdMap fp rest sEntries
      .ok (notPresentMsg (fp ++ "." ++ k) :: r)
    | some sv => do
      let d ← collectFieldDifferences (fp ++ "." ++ k) mv sv
      let r ← cfdMap fp rest sEntries
      .ok (d ++ r)

/-- The equal-length sequence arm of `collectFieldDifferences`: compare
element `x` of the match list against element `x` of the subject list,
in index order. -/
def cfdList (fp : String) (i : Nat) (ms ss : List Val) : Except String (List String) :=
  match ms, ss with
  | [], _ => .ok []
  | _ :: _, [] => .error "runtime error: index out of range"
  | mv :: ms2, sv :: ss2 => do
    let d ← collectFieldDifferences (fp ++ "[" ++ toString i ++ "]") mv sv
    let r ← cfdList fp (i + 1) ms2 ss2
    .ok (d ++ r)

end

/-- Embedding of `compareResourceToMatchObject` (compare.go): compare the
match object against the resource content starting at field path `$`. -/
def compareResourceToMatchObject (resObj matchObj : List (String × Val)) : Except String (List String) :=
  collectFieldDifferences "$" (.vmap matchObj) (.vmap resObj)


/-- A document value that is a scalar (not a map and not a sequence). -/
def scalarVal : Val → Bool
  | .vmap _ => false
  | .vlist _ => false
  | _ => true

/-- The partial-match hypothesis of the spec: the keys of the expected
document are a subset of the keys of the actual document at every
nesting level, sequences have equal length pointwise, and every shared
leaf value is equal. -/
inductive Submatch : Val → Val → Prop where
  | scalar (m s : Val) (hm : scalarVal m = true) (h : m = s) : Submatch m s
  | list (ms ss : List Val) (hlen : ms.length = ss.length)
      (h : ∀ i (hi : i < ms.length) (hi2 : i < ss.length),
        Submatch (ms.get ⟨i, hi⟩) (ss.get ⟨i, hi2⟩)) :
      Submatch (.vlist ms) (.vlist ss)
  | map (ms ss : List (String × Val))
      (hdom : ∀ k mv, (k, mv) ∈ ms → (lookupAssoc ss k).isSome = true)
      (h : ∀ k mv sv, (k, mv) ∈ ms → lookupAssoc ss k = some sv → Submatch mv sv) :
      Submatch (.vmap ms) (.vmap ss)

theorem typesComparable_self (m : Val) : typesComparable m m = true := by
  cases m <;> simp [typesComparable, sameGoType]

theorem cfdList_ok (ms : List Val) :
    ∀ (ss : List Val) (fp : String) (i : Nat), ms.length = ss.length →
    (∀ idx (h1 : idx < ms.length) (h2 : idx < ss.length) (fp2 : String),
      collectFieldDifferences fp2 (ms.get ⟨idx, h1⟩) (ss.get ⟨idx, h2⟩) = .ok []) →
    cfdList fp i ms ss = .ok [] := by
  induction ms with
  | nil => intro ss fp i _ _; simp [cfdList]
  | cons mv ms2 ih =>
    intro ss fp i hlen hall
    cases ss with
    | nil => simp at hlen
    | cons sv ss2 =>
      have h0 : collectFieldDifferences (fp ++ "[" ++ toString i ++ "]") mv sv = .ok [] := by
        have := hall 0 (by simp) (by simp) (fp ++ "[" ++ toString i ++ "]")
        simpa using this
      have hrest : cfdList fp (i + 1) ms2 ss2 = .ok [] := by
        apply ih ss2 fp (i + 1) (by simpa using hlen)
        intro idx h1 h2 fp2
        have := hall (idx + 1) (by simpa using Nat.succ_lt_succ h1) (by simpa using Nat.succ_lt_succ h2) fp2
        simpa using this
      simp [cfdList, h0, hrest, Bind.bind, Except.bind]

theorem cfdMap_ok (ms : List (String × Val)) :
    ∀ (ss : List (String × Val)) (fp : String),
    (∀ k mv, (k, mv) ∈ ms → (lookupAssoc ss k).isSome = true) →
    (∀ k mv sv (fp2 : String), (k, mv) ∈ ms → lookupAssoc ss k = some sv →
      collectFieldDifferences fp2 mv sv = .ok []) →
    cfdMap fp ms ss = .ok [] := by
  induction ms with
  | nil => intro ss fp _ _; simp [cfdMap]
  | cons kv ms2 ih =>
    obtain ⟨k, mv⟩ := kv
    intro ss fp hdom hall
    obtain ⟨sv, hsv⟩ : ∃ sv, lookupAssoc ss k = some sv := by
      have := hdom k mv (by simp)
      cases hx : lookupAssoc ss k with
      | none => rw [hx] at this; simp at this
      | some v => exact ⟨v, rfl⟩
    have h0 : collectFieldDifferences (fp ++ "." ++ k) mv sv = .ok [] :=
      hall k mv sv (fp ++ "." ++ k) (by simp) hsv
    have hrest : cfdMap fp ms2 ss = .ok [] := by
      apply ih ss fp
      · intro k2 mv2 hmem; exact hdom k2 mv2 (List.mem_cons_of_mem _ hmem)
      · intro k2 mv2 sv2 fp2 hmem hl; exact hall k2 mv2 sv2 fp2 (List.mem_cons_of_mem _ hmem) hl
    simp [cfdMap, hsv, h0, hrest, Bind.bind, Except.bind]

theorem collectFieldDifferences_submatch {m s : Val} (h : Submatch m s) :
    ∀ fp, collectFieldDifferences fp m s = .ok [] := by
  induction h with
  | scalar m s hm heq =>
    intro fp
    subst heq
    cases m with
    | vnull => simp [collectFieldDifferences, typesComparable_self, valEq]
    | vbool b => simp [collectFieldDifferences, typesComparable_self, valEq]
    | vint w n => simp [collectFieldDifferences, typesComparable_self]
    | vuint w n => simp [collectFieldDifferences, typesComparable_self, valEq_refl]
    | vstr s2 => simp [collectFieldDifferences, typesComparable_self]
    | vlist l => simp [scalarVal] at hm
    | vmap l => simp [scalarVal] at hm
  | list ms ss hlen hsub ih =>
    intro fp
    rw [collectFieldDifferences]
    simp [typesComparable, sameGoType, hlen,
      cfdList_ok ms ss fp 0 hlen (fun idx h1 h2 fp2 => ih idx h1 h2 fp2)]
  | map ms ss hdom hsub ih =>
    intro fp
    rw [collectFieldDifferences]
    simp [typesComparable, sameGoType,
      cfdMap_ok ms ss fp hdom (fun k mv sv fp2 hmem hl => ih k mv sv hmem hl fp2)]

/-- C3: whenever the expected document is a partial match of the actual
document (its keys a subset of the actual keys at every level, every
shared leaf equal), the comparison returns an empty delta; extra keys of
the actual document are never reported. -/
theorem claim3_partial_match (resObj matchObj : List (String × Val))
    (h : Submatch (.vmap matchObj) (.vmap resObj)) :
    compareResourceToMatchObject resObj matchObj = .ok [] :=
  collectFieldDifferences_submatch h "$"

/-- C3 witness: a concrete expected document is matched against an actual
document carrying extra keys at both levels, and the delta is empty. -/
theorem claim3_partial_match_witness :
    compareResourceToMatchObject
      [("status", .vmap [("readyReplicas", .vint .i 2), ("replicas", .vint .i 3)]),
       ("kind", .vstr "Deployment")]
      [("status", .vmap [("readyReplicas", .vint .i 2)])] = .ok [] := by
  apply claim3_partial_match
  apply Submatch.map
  · intro k mv hmem
    simp at hmem
    obtain ⟨hk, hv⟩ := hmem
    subst hk
    simp [lookupAssoc]
  · intro k mv sv hmem hl
    simp at hmem
    obtain ⟨hk, hv⟩ := hmem
    subst hk; subst hv
    simp [lookupAssoc] at hl
    subst hl
    apply Submatch.map
    · intro k mv hmem
      simp at hmem
      obtain ⟨hk, hv⟩ := hmem
      subst hk
      simp [lookupAssoc]
    · intro k mv sv hmem hl
      simp at hmem
      obtain ⟨hk, hv⟩ := hmem
      subst hk; subst hv
      simp [lookupAssoc] at hl
      subst hl
      exact Submatch.scalar _ _ (by simp [scalarVal]) rfl


theorem cfdList_eq_mapM (ms : List Val) : ∀ (ss : List Val) (i : Nat) (fp : String),
    ms.length = ss.length →
    cfdList fp i ms ss =
      (do
        let parts ← (List.enumFrom i (ms.zip ss)).mapM
          (fun x => collectFieldDifferences (fp ++ "[" ++ toString x.1 ++ "]") x.2.1 x.2.2)
        pure parts.flatten) := by
  induction ms with
  | nil =>
    intro ss i fp _
    rw [show ([] : List Val).zip ss = [] from rfl]
    rw [show List.enumFrom i ([] : List (Val × Val)) = [] from rfl]
    rw [List.mapM_nil, pure_bind, cfdList]
    rfl
  | cons mv ms2 ih =>
    intro ss i fp hlen
    cases ss with
    | nil => simp at hlen
    | cons sv ss2 =>
      rw [cfdList, ih ss2 (i + 1) fp (by simpa using hlen)]
      rw [show (mv :: ms2).zip (sv :: ss2) = (mv, sv) :: ms2.zip ss2 from rfl]
      rw [show List.enumFrom i ((mv, sv) :: ms2.zip ss2)
            = (i, (mv, sv)) :: List.enumFrom (i + 1) (ms2.zip ss2) from rfl]
      rw [List.mapM_cons]
      cases h1 : collectFieldDifferences (fp ++ "[" ++ toString i ++ "]") mv sv with
      | error e => simp [h1, Bind.bind, Except.bind]
      | ok d =>
        cases h2 : (List.enumFrom (i + 1) (ms2.zip ss2)).mapM
            (fun x => collectFieldDifferences (fp ++ "[" ++ toString x.1 ++ "]") x.2.1 x.2.2) with
        | error e => simp [h1, h2, Bind.bind, Except.bind, pure, Except.pure]
        | ok parts => simp [h1, h2, Bind.bind, Except.bind, pure, Except.pure]

/-- C5: comparing two sequence nodes of unequal length yields exactly the
one difference reporting both lengths, independent of the elements, and
otherwise the comparison is the in-order concatenation of the per-index
elementwise comparisons. -/
theorem claim5_length_sensitivity (fp : String) (ms ss : List Val) :
    (ms.length ≠ ss.length →
      collectFieldDifferences fp (.vlist ms) (.vlist ss) =
        .ok [lengthMsg fp ms.length ss.length])
    ∧ (ms.length = ss.length →
      collectFieldDifferences fp (.vlist ms) (.vlist ss) =
        (do
          let parts ← (List.enumFrom 0 (ms.zip ss)).mapM
            (fun x => collectFieldDifferences (fp ++ "[" ++ toString x.1 ++ "]") x.2.1 x.2.2)
          pure parts.flatten)) := by
  constructor
  · intro hne
    rw [collectFieldDifferences]
    simp [typesComparable, sameGoType, hne]
  · intro heq
    rw [collectFieldDifferences]
    simp [typesComparable, sameGoType, heq, cfdList_eq_mapM ms ss 0 fp heq]

/-- C5 witness: a one-element sequence against an empty sequence yields
exactly the single length difference. -/
theorem claim5_length_sensitivity_witness :
    collectFieldDifferences "$" (.vlist [.vint .i 1]) (.vlist []) =
      .ok [lengthMsg "$" 1 0] :=
  (claim5_length_sensitivity "$" [.vint .i 1] []).1 (by simp)

/-- C4 (evaluating the code at the failing input): comparing an expected
string against an actual integer panics unless the integer has dynamic
type exactly `int` — here the decimal string "5" against `int64(5)` hits
the failed `subject.(int)` conversion — although both directions do hold
for width `int`, and an expected `int16` against its decimal string is
reported as a non-comparable difference rather than a match. -/
theorem claim4_string_int_coercion :
    collectFieldDifferences "$" (.vstr "5") (.vint .i64 5) =
      .error "interface conversion: interface {} is int64, not int"
    ∧ collectFieldDifferences "$" (.vint .i 5) (.vstr "5") = .ok []
    ∧ collectFieldDifferences "$" (.vstr "5") (.vint .i 5) = .ok []
    ∧ collectFieldDifferences "$" (.vint .i16 5) (.vstr "5") =
      .ok [nonComparableMsg "$" (.vint .i16 5) (.vstr "5")] := by
  refine ⟨?_, ?_, ?_, ?_⟩
  · simp [collectFieldDifferences, typesComparable, intWComparable, convPanicMsg, goTypeName]
  · simp [collectFieldDifferences, typesComparable, intWComparable, goAtoi]
  · simp [collectFieldDifferences, typesComparable, intWComparable, goItoa]
    decide
  · simp [collectFieldDifferences, typesComparable, intWComparable, sameGoType]

/-- The error value carried out of an action or client call.  A
`resourceUnknown` error is one for which `errors.Is(err, ErrResourceUnknown)`
holds (errors.go); a `statusErr` is a `*apierrors.StatusError` whose
`ErrStatus.Code` is the carried code; `other` is any other error. -/
inductive KErr where
  | resourceUnknown (msg : String)
  | statusErr (code : Int) (msg : String)
  | other (msg : String)
deriving DecidableEq, Repr

/-- The `Error()` text of an error value. -/
def errText : KErr → String
  | .resourceUnknown m => m
  | .statusErr _ m => m
  | .other m => m

/-- Failure values recorded by `assertions.Fail` (assertions.go), one
constructor per `a.Fail(...)` call site. -/
inductive Failure where
  | plain (e : KErr)
  | unexpectedErr (e : Option KErr)
  | expectedNotFoundF (code : Int)
  | notIn (text sub : String)
  | notEqualLength (expected : Int) (actual : Nat)
  | matchesNotEqual (diff : String)
  | conditionDoesNotMatch (diff : String)
  | jsonFail
  | placementFail
deriving DecidableEq, Repr

/-- Embedding of `ConditionMatch` (assertions.go): an optional set of
accepted status strings (`api.FlexStrings.Values()`) and an optional
exact reason string (empty means unspecified). -/
structure CondMatch where
  status : Option (List String)
  reason : String
deriving DecidableEq, Repr

/-- Embedding of `PlacementAssertion` (assertions.go): optional spread
and pack topology key lists. -/
structure PlacementExpect where
  spread : Option (List String)
  pack : Option (List String)
deriving DecidableEq, Repr

/-- Embedding of `Expect` (assertions.go).  `matches` holds the match
object after `matchObjectFromAny` (file reading, YAML decoding and
variable replacement are external collaborators); `json` abstracts the
external gdt JSON assertion by its outcome. -/
structure Expect where
  error : String
  len : Option Int
  notFound : Bool
  unknown : Bool
  matchesObj : Option (List (String × Val))
  json : Option Bool
  conditions : Option (List (String × CondMatch))
  placement : Option PlacementExpect

/-- The `assertions.r` subject: the dynamic value assigned to `*out` by
the action.  `rObj` is a `*unstructured.Unstructured` (possibly a typed
nil pointer), `rList` a `*unstructured.UnstructuredList`, `rObjSlice`
the plain `[]*unstructured.Unstructured` slice produced by the create
and apply actions, and `rNil` the nil interface. -/
inductive RVal where
  | rNil
  | rObj (isNil : Bool) (o : List (String × Val))
  | rList (isNil : Bool) (items : List (List (String × Val)))
  | rObjSlice (objs : List (List (String × Val)))

/-- Embedding of `hasSubject` (assertions.go): true only for a non-nil
`*unstructured.Unstructured` or `*unstructured.UnstructuredList`. -/
def hasSubject : RVal → Bool
  | .rObj isNil _ => !isNil
  | .rList isNil _ => !isNil
  | _ => false

/-- Go `a.r != nil` on the interface value: false only for the nil
interface (a typed nil pointer inside an interface is not nil). -/
def rvalNonNil : RVal → Bool
  | .rNil => false
  | _ => true

/-- Embedding of `expectsNotFound` (assertions.go): the user declared
`notfound: true` or an expected length of exactly 0. -/
def expectsNotFound (exp : Expect) : Bool :=
  (exp.len == some 0) || exp.notFound

/-- The swallowing block of `errorOK` (assertions.go lines 260-286): an
unknown-resource error is swallowed iff `unknown: true` was declared; a
status error is swallowed iff not-found was expected and its code is
404; a `.error` result models the early `return false` with the error
left in place and the recorded failure. -/
def errorOKSwallow (exp : Expect) (err0 : Option KErr) :
    Except (Option KErr × List Failure) (Option KErr) :=
  match err0 with
  | none => .ok none
  | some e =>
    match e with
    | .resourceUnknown _ =>
      if !exp.unknown then .error (some e, [.plain e])
      else .ok none
    | .statusErr code _ =>
      if expectsNotFound exp then
        if code ≠ 404 then .error (some e, [.expectedNotFoundF code])
        else .ok none
      else .error (some e, [.plain e])
    | .other _ => .ok (some e)

/-- Embedding of `errorOK` (assertions.go): the swallowing block, then
the error-substring expectation (only when a result subject interface is
non-nil), then the unconditional failure of any error still present.
Returns (ok, remaining error, recorded failures). -/
def errorOK (exp : Expect) (err0 : Option KErr) (r : RVal) :
    Bool × Option KErr × List Failure :=
  match errorOKSwallow exp err0 with
  | .error (e, fs) => (false, e, fs)
  | .ok err1 =>
    if (exp.error != "") && rvalNonNil r then
      match err1 with
      | none => (false, none, [.unexpectedErr none])
      | some e =>
        if !(goContains (errText e) exp.error) then
          (false, some e, [.notIn (errText e) exp.error])
        else (false, some e, [.unexpectedErr (some e)])
    else
      match err1 with
      | some e => (false, some e, [.unexpectedErr (some e)])
      | none => (true, none, [])

/-- Embedding of `lenOK` (assertions.go): only a non-nil
`*unstructured.UnstructuredList` subject has its item count checked. -/
def lenOK (exp : Expect) (r : RVal) : Bool × List Failure :=
  match exp.len with
  | some l =>
    if hasSubject r then
      match r with
      | .rList isNil items =>
        if !isNil then
          if (items.length : Int) ≠ l then (false, [.notEqualLength l items.length])
          else (true, [])
        else (true, [])
      | _ => (true, [])
    else (true, [])
  | none => (true, [])

/-- Embedding of `matchesOK` (assertions.go): compare a non-list subject
against the match object; list subjects fall through (a TODO in the
source). -/
def matchesOK (exp : Expect) (r : RVal) : Except String (Bool × List Failure) :=
  match exp.matchesObj with
  | some matchObj =>
    if hasSubject r then
      match r with
      | .rObj _ o =>
        match compareResourceToMatchObject o matchObj with
        | .error e => .error e
        | .ok diffs =>
          if diffs ≠ [] then .ok (false, diffs.map .matchesNotEqual) else .ok (true, [])
      | _ => .ok (true, [])
    else .ok (true, [])
  | none => .ok (true, [])


/-- The common condition fields extracted from a resource condition map
(`genericCondition` in compare.go): type and status lower-cased at
extraction time, reason kept verbatim. -/
structure GenericCondition where
  condType : String
  status : String
  reason : String
deriving DecidableEq, Repr

/-- Go map assignment `gcs[k] = v` on an association list: replace an
existing binding or append a new one. -/
def mapInsert {A : Type} (l : List (String × A)) (k : String) (v : A) : List (String × A) :=
  if (lookupAssoc l k).isSome then
    l.map (fun p => if p.1 = k then (k, v) else p)
  else l ++ [(k, v)]

/-- Quoted rendering of a string (the `%q` verb, escaping elided). -/
def quoted (s : String) : String := "\"" ++ s ++ "\""

/-- Space-joined rendering of a string slice (the `%s` verb). -/
def fmtStrList (l : List String) : String :=
  "[" ++ String.intercalate " " l ++ "]"

/-- The "no condition with type .. found" message of compare.go. -/
def noCondMsg (t : String) : String :=
  "no condition with type " ++ quoted t ++ " found"

/-- The "condition .. had no status" message of compare.go. -/
def noStatusMsg (t : String) (svs : List String) : String :=
  "condition " ++ quoted t ++ " had no status. expected status to be one of " ++ fmtStrList svs

/-- The "condition .. had status of .." message of compare.go. -/
def wrongStatusMsg (t st : String) (svs : List String) : String :=
  "condition " ++ quoted t ++ " had status of " ++ quoted st ++
    ". expected status to be one of " ++ fmtStrList svs

/-- The "condition .. had reason of .." message of compare.go. -/
def wrongReasonMsg (t r er : String) : String :=
  "condition " ++ quoted t ++ " had reason of " ++ quoted r ++
    ". expected reason to be " ++ quoted er

/-- Extraction of a `GenericCondition` from one condition map
(compare.go lines 69-80): keys are compared lower-cased; the type,
reason and status values are asserted to be strings (a non-string value
panics via `v.(string)`), type and status are stored lower-cased. -/
def buildGc : List (String × Val) → GenericCondition → Except String GenericCondition
  | [], gc => .ok gc
  | (k, v) :: rest, gc =>
    let klow := lowerStr k
    if klow = "type" then
      match v with
      | .vstr s => buildGc rest { gc with condType := lowerStr s }
      | _ => .error (convPanicMsg v "string")
    else if klow = "reason" then
      match v with
      | .vstr s => buildGc rest { gc with reason := s }
      | _ => .error (convPanicMsg v "string")
    else if klow = "status" then
      match v with
      | .vstr s => buildGc rest { gc with status := lowerStr s }
      | _ => .error (convPanicMsg v "string")
    else buildGc rest gc

/-- The map of `GenericCondition`, keyed by lower-cased condition type,
built from the resource conditions (compare.go lines 55-83); a
non-map member panics. -/
def buildGcs : List Val → List (String × GenericCondition) →
    Except String (List (String × GenericCondition))
  | [], gcs => .ok gcs
  | c :: rest, gcs =>
    match c with
    | .vmap cm =>
      match buildGc cm ⟨"", "", ""⟩ with
      | .error e => .error e
      | .ok gc => buildGcs rest (mapInsert gcs gc.condType gc)
    | _ =>
      .error ("found a resource with a non-map[string]any Status.Conditions member type: "
        ++ goTypeName c)

/-- The per-expected-condition check of compare.go lines 84-127: look up
the lower-cased type, then check status membership (both sides
lower-cased) and, if a reason was specified, exact reason equality. -/
def checkCondition (gcs : List (String × GenericCondition)) (condType : String)
    (cm : CondMatch) : List String :=
  let reasonDiffs := fun (gc : GenericCondition) =>
    if cm.reason ≠ "" ∧ gc.reason ≠ cm.reason then
      [wrongReasonMsg condType gc.reason cm.reason]
    else []
  match lookupAssoc gcs (lowerStr condType) with
  | none => [noCondMsg condType]
  | some gc =>
    match cm.status with
    | some statusValues =>
      if gc.status = "" then [noStatusMsg condType statusValues]
      else
        let svlow := statusValues.map lowerStr
        if !(svlow.contains (lowerStr gc.status)) then
          [wrongStatusMsg condType gc.status statusValues]
        else reasonDiffs gc
    | none => reasonDiffs gc

/-- The body of `compareConditions` after extraction of the conditions
slice: an absent or empty slice reports every expected type missing;
otherwise each expected condition is checked against the built map. -/
def compareConditionsBody (conds : List Val) (expected : List (String × CondMatch)) :
    Except String (List String) :=
  if conds.length = 0 ∧ expected.length ≠ 0 then
    .ok (expected.map (fun p => noCondMsg p.1))
  else
    match buildGcs conds [] with
    | .error e => .error e
    | .ok gcs => .ok (expected.foldl (fun acc p => acc ++ checkCondition gcs p.1 p.2) [])

/-- Embedding of `compareConditions` (compare.go): extract
`status.conditions` from the resource content (an intermediate non-map
or missing key behaves as not found); a present non-slice value
panics. -/
def compareConditions (obj : List (String × Val)) (expected : List (String × CondMatch)) :
    Except String (List String) :=
  let condsVal : Option Val :=
    match lookupAssoc obj "status" with
    | some (.vmap sm) => lookupAssoc sm "conditions"
    | _ => none
  match condsVal with
  | some v =>
    match v with
    | .vlist conds => compareConditionsBody conds expected
    | _ => .error "found a resource with a non-slice Status.Conditions field"
  | none => compareConditionsBody [] expected


/-- A cluster node as read by `getNodes` (placement source file): name
and labels (the allocatable map is unused by the spread assertion and
omitted). -/
structure KNode where
  name : String
  labels : List (String × String)
deriving DecidableEq, Repr

/-- A pod as read by `getPods`: name and the node it is scheduled on. -/
structure KPod where
  name : String
  nodename : String
deriving DecidableEq, Repr

/-- `domainNodes[k]` of `placementSpreadOK`: the names of the nodes that
carry label key `k` (the label value is not consulted). -/
def domainNodes (nodes : List KNode) (k : String) : List String :=
  (nodes.filter (fun n => (lookupAssoc n.labels k).isSome)).map (fun n => n.name)

/-- The pod count per node name computed by `placementSpreadOK`. -/
def podCountOnNode (pods : List KPod) (dom : String) : Nat :=
  (pods.filter (fun p => p.nodename = dom)).length

/-- `lo.Min`: minimum of a slice, zero for an empty slice. -/
def minList : List Nat → Nat
  | [] => 0
  | h :: t => t.foldl min h

/-- `lo.Max`: maximum of a slice, zero for an empty slice. -/
def maxList : List Nat → Nat
  | [] => 0
  | h :: t => t.foldl max h

/-- Embedding of `placementSpreadOK`: for each topology key with at
least one node carrying that key, the per-node pod counts over those
nodes must have max minus min at most 1.  The node and pod lists stand
for the results of the external `getNodes` and `getPods` fetches; the
boolean outcome is order-independent, so the arbitrary Go map iteration
order is irrelevant. -/
def placementSpreadOK (nodes : List KNode) (pods : List KPod) (topoKeys : List String) : Bool :=
  if topoKeys.length = 0 then true
  else topoKeys.all (fun k =>
    let dns := domainNodes nodes k
    if dns.length > 0 then
      let nodeCounts := dns.map (podCountOnNode pods)
      maxList nodeCounts - minList nodeCounts ≤ 1
    else true)

/-- Embedding of `placementPackOK`: a placeholder returning true. -/
def placementPackOK : Bool := true

/-- The distinct values of label key `k` across the nodes. -/
def specDomainValues (nodes : List KNode) (k : String) : List String :=
  (nodes.filterMap (fun n => lookupAssoc n.labels k)).dedup

/-- The number of pods scheduled on a node whose label `k` equals `v`. -/
def specDomainPodCount (nodes : List KNode) (pods : List KPod) (k v : String) : Nat :=
  (pods.filter (fun p =>
    nodes.any (fun n => n.name = p.nodename && lookupAssoc n.labels k == some v))).length

/-- The spread assertion as the spec words it, for comparison with
`placementSpreadOK`: group nodes into domains by the value of the node
label for each topology key, count pods per domain, and for each
topology key with at least one populated domain require max minus min
across the domains of that key to be at most 1. -/
def specSpreadOK (nodes : List KNode) (pods : List KPod) (topoKeys : List String) : Bool :=
  topoKeys.all (fun k =>
    let doms := specDomainValues nodes k
    if doms.length > 0 then
      let counts := doms.map (fun v => specDomainPodCount nodes pods k v)
      maxList counts - minList counts ≤ 1
    else true)

/-- Embedding of `conditionsOK` (assertions.go): compare a non-list
subject's conditions; list subjects fall through (a TODO in the
source). -/
def conditionsOK (exp : Expect) (r : RVal) : Except String (Bool × List Failure) :=
  match exp.conditions with
  | some expected =>
    if hasSubject r then
      match r with
      | .rObj _ o =>
        match compareConditions o expected with
        | .error e => .error e
        | .ok diffs =>
          if diffs ≠ [] then .ok (false, diffs.map .conditionDoesNotMatch) else .ok (true, [])
      | _ => .ok (true, [])
    else .ok (true, [])
  | none => .ok (true, [])

/-- Embedding of `jsonOK` (assertions.go): the external gdt JSON
assertion runs only when configured and a subject is present; its
outcome is abstracted as the configured Bool. -/
def jsonOK (exp : Expect) (r : RVal) : Bool × List Failure :=
  match exp.json with
  | some outcome =>
    if hasSubject r then
      if outcome then (true, []) else (false, [.jsonFail])
    else (true, [])
  | none => (true, [])

/-- Embedding of `placementOK` (assertions.go): requires an
`*unstructured.Unstructured` subject (anything else panics), then runs
the spread and pack assertions over the fetched nodes and pods.  The
specific failure message recorded inside `placementSpreadOK` is
abstracted as a single placement failure. -/
def placementOK (exp : Expect) (r : RVal) (nodes : List KNode) (pods : List KPod) :
    Except String (Bool × List Failure) :=
  match exp.placement with
  | some pl =>
    if hasSubject r then
      match r with
      | .rObj _ _ =>
        let ok1 := match pl.spread with
          | some keys => placementSpreadOK nodes pods keys
          | none => true
        let ok2 := match pl.pack with
          | some _ => ok1 && placementPackOK
          | none => ok1
        if ok2 then .ok (true, []) else .ok (false, [.placementFail])
      | _ => .error "expected result to be unstructured.Unstructured"
    else .ok (true, [])
  | none => .ok (true, [])

/-- Embedding of `assertions.OK` (assertions.go): with no expectation an
error fails, otherwise the checks run in the fixed order error, len,
matches, conditions, json, placement, each failing stage
short-circuiting the rest. -/
def assertionsOK (expOpt : Option Expect) (err : Option KErr) (r : RVal)
    (nodes : List KNode) (pods : List KPod) : Except String (Bool × List Failure) :=
  match expOpt with
  | none =>
    if err.isSome then .ok (false, [.unexpectedErr err]) else .ok (true, [])
  | some exp =>
    let e := errorOK exp err r
    if !e.1 then .ok (false, e.2.2)
    else
      let l := lenOK exp r
      if !l.1 then .ok (false, e.2.2 ++ l.2)
      else
        match matchesOK exp r with
        | .error pm => .error pm
        | .ok m =>
          if !m.1 then .ok (false, e.2.2 ++ l.2 ++ m.2)
          else
            match conditionsOK exp r with
            | .error pm => .error pm
            | .ok c =>
              if !c.1 then .ok (false, e.2.2 ++ l.2 ++ m.2 ++ c.2)
              else
                let j := jsonOK exp r
                if !j.1 then .ok (false, e.2.2 ++ l.2 ++ m.2 ++ c.2 ++ j.2)
                else
                  match placementOK exp r nodes pods with
                  | .error pm => .error pm
                  | .ok p =>
                    if !p.1 then .ok (false, e.2.2 ++ l.2 ++ m.2 ++ c.2 ++ j.2 ++ p.2)
                    else .ok (true, e.2.2 ++ l.2 ++ m.2 ++ c.2 ++ j.2 ++ p.2)

/-- The value assigned to `*out` by the create and apply actions
(action.go): the plain slice of created or applied objects. -/
def createOut (createdObjs : List (List (String × Val))) : RVal :=
  .rObjSlice createdObjs


/-- Cluster state visible to the step evaluator: the set of existing
namespace names. -/
structure KubeState where
  namespaces : List String
deriving DecidableEq, Repr

/-- Outcome of the namespace Get call in `ensureNamespace` (eval.go):
success, a NotFound error, or any other API error. -/
inductive GetNsOutcome where
  | found
  | notFound
  | apiErr (msg : String)
deriving DecidableEq, Repr

/-- Outcome of the namespace Create call in `ensureNamespace`. -/
inductive CreateNsOutcome where
  | created
  | createErr (msg : String)
deriving DecidableEq, Repr

/-- Embedding of `ensureNamespace` (eval.go): resolve the namespaces
resource, Get the namespace (an error other than NotFound is returned
to the caller), and create it when the Get produced no object.  The
`.error` branch models the `(false, err)` return; on success the pair
carries whether the namespace was created and the resulting cluster
state. -/
def ensureNamespace (st : KubeState) (gvrErr : Option String) (g : GetNsOutcome)
    (c : CreateNsOutcome) (ns : String) : Except String (Bool × KubeState) :=
  match gvrErr with
  | some e => .error e
  | none =>
    match g with
    | .apiErr m => .error m
    | .found => .ok (false, st)
    | .notFound =>
      match c with
      | .createErr m => .error m
      | .created => .ok (true, { namespaces := ns :: st.namespaces })

/-- Outcome of one `Spec.Eval` call, abstracted to what the claim needs:
either the step aborted with an error before the action ran, or the
action ran against the recorded cluster state and produced `res`. -/
inductive EvalOutcome (A : Type) where
  | aborted (msg : String)
  | completed (actionState : KubeState) (res : A)
deriving DecidableEq, Repr

/-- Embedding of the front of `Spec.Eval` (eval.go): connect, ensure the
step's target namespace, then run the action (`s.Kube.Do` and the
assertion evaluation are downstream of the recorded state). -/
def evalStep {A : Type} (st : KubeState) (connectErr : Option String) (gvrErr : Option String)
    (g : GetNsOutcome) (c : CreateNsOutcome) (ns : String) (action : KubeState → A) :
    EvalOutcome A :=
  match connectErr with
  | some e => .aborted ("k8s connect failure: " ++ e)
  | none =>
    match ensureNamespace st gvrErr g c ns with
    | .error e => .aborted e
    | .ok (_, st2) => .completed st2 (action st2)


theorem lenOK_no_subject (exp : Expect) (r : RVal) (h : hasSubject r = false) :
    lenOK exp r = (true, []) := by
  unfold lenOK; cases exp.len <;> simp [h]

theorem matchesOK_no_subject (exp : Expect) (r : RVal) (h : hasSubject r = false) :
    matchesOK exp r = .ok (true, []) := by
  unfold matchesOK; cases exp.matchesObj <;> simp [h]

theorem conditionsOK_no_subject (exp : Expect) (r : RVal) (h : hasSubject r = false) :
    conditionsOK exp r = .ok (true, []) := by
  unfold conditionsOK; cases exp.conditions <;> simp [h]

theorem jsonOK_no_subject (exp : Expect) (r : RVal) (h : hasSubject r = false) :
    jsonOK exp r = (true, []) := by
  unfold jsonOK; cases exp.json <;> simp [h]

theorem placementOK_no_subject (exp : Expect) (r : RVal) (nodes : List KNode)
    (pods : List KPod) (h : hasSubject r = false) :
    placementOK exp r nodes pods = .ok (true, []) := by
  unfold placementOK; cases exp.placement <;> simp [h]

/-- C1: a status error is swallowed (cleared to nil, evaluation then
behaving exactly as if no error had occurred) iff the user declared
`notfound: true` or an expected length of exactly 0 and the carried
code is 404; in every other case the status error is a hard failure
that short-circuits evaluation with exactly one recorded failure. -/
theorem claim1_notfound_swallow (exp : Expect) (code : Int) (msg : String) (r : RVal) :
    ((errorOK exp (some (.statusErr code msg)) r).2.1 = none ↔
      (expectsNotFound exp = true ∧ code = 404))
    ∧ ((expectsNotFound exp = true ∧ code = 404) →
      errorOK exp (some (.statusErr code msg)) r = errorOK exp none r)
    ∧ (¬(expectsNotFound exp = true ∧ code = 404) →
      (errorOK exp (some (.statusErr code msg)) r).1 = false
      ∧ (errorOK exp (some (.statusErr code msg)) r).2.2.length = 1) := by
  by_cases hnf : expectsNotFound exp = true
  · by_cases hc : code = 404
    · subst hc
      refine ⟨?_, ?_, ?_⟩
      · simp only [errorOK, errorOKSwallow, hnf, if_true]
        simp
        split <;> simp [hnf]
      · intro _
        simp [errorOK, errorOKSwallow, hnf]
      · intro hcon
        exact absurd ⟨hnf, rfl⟩ hcon
    · refine ⟨?_, ?_, ?_⟩
      · simp [errorOK, errorOKSwallow, hnf, hc]
      · intro hcon
        exact absurd hcon.2 hc
      · intro _
        simp [errorOK, errorOKSwallow, hnf, hc]
  · refine ⟨?_, ?_, ?_⟩
    · simp [errorOK, errorOKSwallow, hnf]
    · intro hcon
      exact absurd hcon.1 hnf
    · intro _
      simp [errorOK, errorOKSwallow, hnf]

/-- C1 witness: with `notfound: true` a 404 status error is cleared to
nil, and without it the same error is a hard failure. -/
theorem claim1_notfound_swallow_witness :
    (errorOK ⟨"", none, true, false, none, none, none, none⟩
      (some (.statusErr 404 "pods not found")) .rNil).2.1 = none
    ∧ (errorOK ⟨"", none, false, false, none, none, none, none⟩
      (some (.statusErr 404 "pods not found")) .rNil).1 = false :=
  ⟨(claim1_notfound_swallow ⟨"", none, true, false, none, none, none, none⟩
      404 "pods not found" .rNil).1.mpr ⟨by decide, rfl⟩,
   ((claim1_notfound_swallow ⟨"", none, false, false, none, none, none, none⟩
      404 "pods not found" .rNil).2.2 (by decide)).1⟩

/-- C2: the distinguished unknown-resource-kind error is swallowed
(cleared to nil, evaluation then behaving exactly as if no error had
occurred) iff the user declared `unknown: true`; otherwise it is
recorded as a hard failure and evaluation of the attempt stops. -/
theorem claim2_unknown_swallow (exp : Expect) (msg : String) (r : RVal) :
    ((errorOK exp (some (.resourceUnknown msg)) r).2.1 = none ↔ exp.unknown = true)
    ∧ (exp.unknown = true →
      errorOK exp (some (.resourceUnknown msg)) r = errorOK exp none r)
    ∧ (exp.unknown = false →
      errorOK exp (some (.resourceUnknown msg)) r =
        (false, some (.resourceUnknown msg), [.plain (.resourceUnknown msg)])) := by
  by_cases hu : exp.unknown = true
  · refine ⟨?_, ?_, ?_⟩
    · simp only [errorOK, errorOKSwallow, hu]
      simp
      split <;> simp [hu]
    · intro _
      simp [errorOK, errorOKSwallow, hu]
    · intro hfalse
      rw [hu] at hfalse
      cases hfalse
  · have hu2 : exp.unknown = false := by
      cases h2 : exp.unknown
      · rfl
      · exact absurd h2 hu
    refine ⟨?_, ?_, ?_⟩
    · simp [errorOK, errorOKSwallow, hu2]
    · intro h2
      exact absurd h2 hu
    · intro _
      simp [errorOK, errorOKSwallow, hu2]

/-- C2 witness: with `unknown: true` the unknown-kind error is cleared
to nil, and without it the same error is the single hard failure. -/
theorem claim2_unknown_swallow_witness :
    (errorOK ⟨"", none, false, true, none, none, none, none⟩
      (some (.resourceUnknown "resource unknown: gizmos")) .rNil).2.1 = none
    ∧ (errorOK ⟨"", none, false, false, none, none, none, none⟩
      (some (.resourceUnknown "resource unknown: gizmos")) .rNil) =
      (false, some (.resourceUnknown "resource unknown: gizmos"),
        [.plain (.resourceUnknown "resource unknown: gizmos")]) :=
  ⟨(claim2_unknown_swallow ⟨"", none, false, true, none, none, none, none⟩
      "resource unknown: gizmos" .rNil).1.mpr rfl,
   (claim2_unknown_swallow ⟨"", none, false, false, none, none, none, none⟩
      "resource unknown: gizmos" .rNil).2.2 rfl⟩

/-- C7 counterexample: the claim says a remaining error with a declared
substring expectation fails exactly when the text does not contain the
substring, but here the text does contain it and evaluation still
fails: the matched error is never cleared, so the final outstanding
error check fails the attempt. -/
theorem claim7_counterexample :
    goContains "boom happened" "boom" = true
    ∧ (errorOK ⟨"boom", none, false, false, none, none, none, none⟩
        (some (.other "boom happened")) (.rObj false [])).1 = false := by
  constructor
  · decide
  · rfl

/-- C7 (amended): when neither swallow condition applies and an error
remains, the substring check runs only against a non-nil result
subject, and a missing substring records a NotIn hard failure; a
present substring still leaves the error in place, so the attempt fails
with an unexpected-error failure regardless.  The swallow checks run
first: a swallowed unknown-kind error never reaches the substring
check, which then fails for want of any error. -/
theorem claim7_error_substring (exp : Expect) (msg : String) (r : RVal)
    (he : exp.error ≠ "") (hr : rvalNonNil r = true) :
    (errorOK exp (some (.other msg)) r =
      (false, some (.other msg),
        if goContains msg exp.error then [.unexpectedErr (some (.other msg))]
        else [.notIn msg exp.error]))
    ∧ (∀ m2, exp.unknown = true →
        errorOK exp (some (.resourceUnknown m2)) r = (false, none, [.unexpectedErr none])) := by
  constructor
  · by_cases hg : goContains msg exp.error = true
    · simp [errorOK, errorOKSwallow, he, hr, errText, hg]
    · simp only [Bool.not_eq_true] at hg
      simp [errorOK, errorOKSwallow, he, hr, errText, hg]
  · intro m2 hu
    simp [errorOK, errorOKSwallow, he, hr, hu]

/-- C7 witness: a remaining error lacking the declared substring records
the NotIn failure. -/
theorem claim7_error_substring_witness :
    errorOK ⟨"oops", none, false, false, none, none, none, none⟩
      (some (.other "boom happened")) (.rObj false []) =
      (false, some (.other "boom happened"), [.notIn "boom happened" "oops"]) := by
  have h := (claim7_error_substring ⟨"oops", none, false, false, none, none, none, none⟩
    "boom happened" (.rObj false []) (by decide) rfl).1
  rw [h]
  decide


/-- C8 (evaluating the code at the failing input): the spread assertion
does not group nodes into domains by the label value of the topology
key — it treats every node carrying the key as its own domain and
compares per-node pod counts.  With one node in zone a carrying three
pods and three nodes in zone b carrying one pod each, the label-value
domains are perfectly even (3 versus 3) and the spec-worded assertion
passes, but the code computes a per-node skew of 2 and fails. -/
theorem claim8_spread_per_node :
    placementSpreadOK
      [⟨"n1", [("zone", "a")]⟩, ⟨"n2", [("zone", "b")]⟩,
       ⟨"n3", [("zone", "b")]⟩, ⟨"n4", [("zone", "b")]⟩]
      [⟨"p1", "n1"⟩, ⟨"p2", "n1"⟩, ⟨"p3", "n1"⟩,
       ⟨"p4", "n2"⟩, ⟨"p5", "n3"⟩, ⟨"p6", "n4"⟩]
      ["zone"] = false
    ∧ specSpreadOK
      [⟨"n1", [("zone", "a")]⟩, ⟨"n2", [("zone", "b")]⟩,
       ⟨"n3", [("zone", "b")]⟩, ⟨"n4", [("zone", "b")]⟩]
      [⟨"p1", "n1"⟩, ⟨"p2", "n1"⟩, ⟨"p3", "n1"⟩,
       ⟨"p4", "n2"⟩, ⟨"p5", "n3"⟩, ⟨"p6", "n4"⟩]
      ["zone"] = true := by
  constructor
  · decide
  · decide

/-- C9: whenever the step evaluator reaches the action, the target
namespace is in the cluster state the action runs against (given a
truthful Get: a found namespace exists), and a namespace-check error
other than NotFound aborts the step before any action runs. -/
theorem claim9_namespace_ensured {A : Type} (st : KubeState) (connectErr gvrErr : Option String)
    (g : GetNsOutcome) (c : CreateNsOutcome) (ns : String) (action : KubeState → A)
    (hfaithful : g = .found → ns ∈ st.namespaces) :
    (∀ st2 res, evalStep st connectErr gvrErr g c ns action = .completed st2 res →
      ns ∈ st2.namespaces)
    ∧ (∀ m, g = .apiErr m → connectErr = none → gvrErr = none →
      evalStep st connectErr gvrErr g c ns action = .aborted m) := by
  constructor
  · intro st2 res hrun
    cases connectErr with
    | some e => simp [evalStep] at hrun
    | none =>
      cases gvrErr with
      | some e => simp [evalStep, ensureNamespace] at hrun
      | none =>
        cases g with
        | apiErr m => simp [evalStep, ensureNamespace] at hrun
        | found =>
          simp [evalStep, ensureNamespace] at hrun
          obtain ⟨h1, h2⟩ := hrun
          subst h1
          exact hfaithful rfl
        | notFound =>
          cases c with
          | createErr m => simp [evalStep, ensureNamespace] at hrun
          | created =>
            simp [evalStep, ensureNamespace] at hrun
            obtain ⟨h1, h2⟩ := hrun
            subst h1
            simp
  · intro m hg hconn hgvr
    subst hg; subst hconn; subst hgvr
    simp [evalStep, ensureNamespace]

/-- C9 witness: evaluating a step against a cluster without the target
namespace creates it, so the action runs with the namespace present. -/
theorem claim9_namespace_ensured_witness :
    "default" ∈ (KubeState.mk ["default"]).namespaces :=
  (claim9_namespace_ensured (KubeState.mk []) none none .notFound .created "default"
      (fun _ => (0 : Nat)) (by intro h; cases h)).1
    (KubeState.mk ["default"]) 0 rfl

/-- C10: the plain object slice produced by the create and apply actions
is not a subject, so the len, matches, conditions, json and placement
checks are all skipped and the assertion outcome coincides with the
error check alone. -/
theorem claim10_create_apply_error_only (exp : Expect) (err : Option KErr)
    (objs : List (List (String × Val))) (nodes : List KNode) (pods : List KPod) :
    hasSubject (createOut objs) = false
    ∧ assertionsOK (some exp) err (createOut objs) nodes pods =
      .ok ((errorOK exp err (createOut objs)).1, (errorOK exp err (createOut objs)).2.2) := by
  have hs : hasSubject (createOut objs) = false := rfl
  refine ⟨hs, ?_⟩
  cases he : (errorOK exp err (createOut objs)).1 with
  | false => simp [assertionsOK, he]
  | true =>
    simp [assertionsOK, he, lenOK_no_subject exp _ hs, matchesOK_no_subject exp _ hs,
      conditionsOK_no_subject exp _ hs, jsonOK_no_subject exp _ hs,
      placementOK_no_subject exp _ nodes pods hs]


theorem char_ofNat_toNat (n : Nat) (h : n.isValidChar) : (Char.ofNat n).toNat = n := by
  simp only [Char.ofNat, Char.ofNatAux, Char.toNat, h, dif_pos]
  rfl

theorem char_toLower_idem (c : Char) : c.toLower.toLower = c.toLower := by
  unfold Char.toLower
  by_cases h : c.toNat ≥ 65 ∧ c.toNat ≤ 90
  · have hv : (Char.ofNat (c.toNat + 32)).toNat = c.toNat + 32 :=
      char_ofNat_toNat _ (Or.inl (by omega))
    rw [if_pos h, if_neg (by rw [hv]; omega)]
  · rw [if_neg h, if_neg h]

theorem lowerStr_idem (s : String) : lowerStr (lowerStr s) = lowerStr s := by
  simp only [lowerStr, List.map_map]
  congr 1
  apply List.map_congr_left
  intro a _
  exact char_toLower_idem a

theorem lowerStr_eq_empty_iff (s : String) : lowerStr s = "" ↔ s = "" := by
  constructor
  · intro h
    have hd : (lowerStr s).data = [] := by rw [h]
    simp only [lowerStr] at hd
    cases s with
    | mk l => cases l with
      | nil => rfl
      | cons c cs => simp at hd
  · intro h
    rw [h]
    rfl


/-- A resource whose `status.conditions` holds exactly one condition
with the given type, status and reason strings. -/
def condResource (t s r : String) : List (String × Val) :=
  [("status", .vmap [("conditions", .vlist [.vmap
    [("type", .vstr t), ("status", .vstr s), ("reason", .vstr r)]])])]

/-- C6: matching of the condition type and of the status values is
case-insensitive — any casing of the expected type and status matches
the same condition — while a specified expected reason must equal the
actual reason by exact, case-sensitive string comparison. -/
theorem claim6_condition_case_matching :
    (∀ t s r t2 s2, lowerStr t2 = lowerStr t → lowerStr s2 = lowerStr s → s ≠ "" →
      compareConditions (condResource t s r) [(t2, ⟨some [s2], ""⟩)] = .ok [])
    ∧ (∀ t s r r2, s ≠ "" → r2 ≠ "" →
      (compareConditions (condResource t s r) [(t, ⟨some [s], r2⟩)] = .ok [] ↔ r = r2)) := by
  constructor
  · intro t s r t2 s2 ht hs hsne
    have hne2 : ¬(lowerStr s = "") := fun h => hsne ((lowerStr_eq_empty_iff s).mp h)
    have hbody : compareConditions (condResource t s r) [(t2, ⟨some [s2], ""⟩)] =
        .ok ([] ++ checkCondition [(lowerStr t, ⟨lowerStr t, lowerStr s, r⟩)]
          t2 ⟨some [s2], ""⟩) := rfl
    rw [hbody]
    simp [checkCondition, lookupAssoc, ht, hs, hne2, lowerStr_idem]
  · intro t s r r2 hsne hrne
    have hne2 : ¬(lowerStr s = "") := fun h => hsne ((lowerStr_eq_empty_iff s).mp h)
    have hbody : compareConditions (condResource t s r) [(t, ⟨some [s], r2⟩)] =
        .ok ([] ++ checkCondition [(lowerStr t, ⟨lowerStr t, lowerStr s, r⟩)]
          t ⟨some [s], r2⟩) := rfl
    rw [hbody]
    simp [checkCondition, lookupAssoc, hne2, lowerStr_idem, hrne]

/-- C6 witness: a lower-cased expected type and status match the
actual condition, and a reason differing only in case does not. -/
theorem claim6_condition_case_matching_witness :
    compareConditions (condResource "Ready" "True" "") [("ready", ⟨some ["true"], ""⟩)] = .ok []
    ∧ ¬(compareConditions (condResource "Progressing" "True" "NewReplicaSetAvailable")
        [("Progressing", ⟨some ["True"], "newreplicasetavailable"⟩)] = .ok []) := by
  constructor
  · exact claim6_condition_case_matching.1 "Ready" "True" "" "ready" "true"
      (by decide) (by decide) (by decide)
  · intro h
    have := (claim6_condition_case_matching.2 "Progressing" "True" "NewReplicaSetAvailable"
      "newreplicasetavailable" (by decide) (by decide)).mp h
    exact absurd this (by decide)

end GdtKube
